import Mathlib

/-!
Shallow embedding of the `jlox` interpreter (Rust sources under `src/`):
the token/AST data model (`src/lox/token.rs`, `src/lib/parser/statements.rs`),
the runtime value model with its operator semantics
(`src/lib/interpreter/values.rs`), the statement executor
(`src/lib/parser/statements.rs`) and the recursive-descent expression parser
(`src/lib/parser/mod.rs`).

Modelling conventions:
* Rust `f64` payloads are modelled as `ℚ` (exact arithmetic); `isize`/`usize`
  payloads as `ℤ`.  The properties verified here concern branch and type
  selection (widening, pre-checks, equality shape), never IEEE rounding.
* Fallible Rust code returning `LoxResult` becomes `Except LoxError _`.
* A Rust panic (`unreachable!()`, `Option::unwrap` on `None`) and running out
  of recursion fuel are both modelled as `none` in an outer `Option` layer:
  `none` means "this execution does not produce a result in the model".
* Interior-mutable `Rc<Environment>` chains become a functional environment
  value threaded through execution.
-/

namespace Rlox

/-- `Position` from `src/lox/token.rs`: a line/column pair. -/
structure Position where
  line : Nat
  col : Nat
deriving Repr, DecidableEq

/-- `Span` from `src/lox/token.rs`.  The Rust field `end` is a Lean keyword,
so it is called `stop` here; `Span::start()`/`Span::end()` are `.start`/`.stop`. -/
structure Span where
  start : Position
  stop : Position
deriving Repr, DecidableEq

/-- `Keyword` from `src/lox/token.rs`. -/
inductive Keyword where
  | And | Class | Else | Let | While | Fn | For | If | Nil | Or
  | Print | Return | Super | This | Extends
deriving Repr, DecidableEq

/-- `Punctuator` from `src/lox/token.rs`. -/
inductive Punctuator where
  | OpenParen | CloseParen | OpenBracket | CloseBracket
  | Assign | AssignAdd | AssignSub | AssignMul | AssignDiv
  | Not | Eq | NotEq | Add | Sub | Mul | Div | Dot | Comma | Semicolon
  | GreaterThan | GreaterThanOrEq | LessThan | LessThanOrEq
deriving Repr, DecidableEq

/-- `Numeric` from `src/lox/token.rs` (`Integer(usize)` / `Decimal(f64)`,
modelled as `ℤ` / `ℚ`). -/
inductive Numeric where
  | Integer : ℤ → Numeric
  | Decimal : ℚ → Numeric
deriving Repr, DecidableEq

/-- `TokenKind` from `src/lox/token.rs`. -/
inductive TokenKind where
  | Keyword : Keyword → TokenKind
  | Punctuator : Punctuator → TokenKind
  | Identifier : String → TokenKind
  | StringLiteral : String → TokenKind
  | NumericLiteral : Numeric → TokenKind
  | BooleanLiteral : Bool → TokenKind
  | Comment : TokenKind
  | EOF : TokenKind
deriving Repr, DecidableEq

/-- `Token` from `src/lox/token.rs`. -/
structure Token where
  kind : TokenKind
  lexeme : String
  literal : String
  span : Span
deriving Repr, DecidableEq

/-- `impl Display for Keyword` from `src/lox/token.rs`. -/
def Keyword.display : Keyword → String
  | .And => "and"
  | .Class => "class"
  | .Else => "else"
  | .Let => "let"
  | .While => "while"
  | .Fn => "fn"
  | .For => "for"
  | .If => "if"
  | .Nil => "nil"
  | .Or => "or"
  | .Print => "print"
  | .Return => "return"
  | .Super => "super"
  | .This => "this"
  | .Extends => "extends"

/-- `impl Display for Punctuator` from `src/lox/token.rs`. -/
def Punctuator.display : Punctuator → String
  | .OpenParen => "("
  | .CloseParen => ")"
  | .OpenBracket => "["
  | .CloseBracket => "]"
  | .Comma => ","
  | .Dot => "."
  | .Semicolon => ";"
  | .Assign => "="
  | .AssignAdd => "+="
  | .AssignSub => "-="
  | .AssignDiv => "/="
  | .AssignMul => "*="
  | .Eq => "=="
  | .Sub => "-"
  | .Add => "+"
  | .Div => "/"
  | .Mul => "*"
  | .GreaterThan => ">"
  | .GreaterThanOrEq => ">="
  | .LessThan => "<"
  | .LessThanOrEq => "<="
  | .Not => "!"
  | .NotEq => "!="

/-- Textual rendering of the `ℚ` model of an `f64` payload.  Integral values
render like Rust's `{}` on `f64` does for integral doubles apart from the
missing fractional formatting; no verified claim depends on this string. -/
def ratDisplay (q : ℚ) : String :=
  if q.den = 1 then toString q.num else toString q.num ++ "/" ++ toString q.den

/-- `impl Display for TokenKind` from `src/lox/token.rs`. -/
def TokenKind.display : TokenKind → String
  | .Keyword k => k.display
  | .Identifier s => s
  | .Punctuator p => p.display
  | .StringLiteral s => s
  | .NumericLiteral (.Integer n) => toString n
  | .NumericLiteral (.Decimal q) => ratDisplay q
  | .BooleanLiteral b => cond b "true" "false"
  | .Comment => "comment"
  | .EOF => "end of file"

/-- `impl Display for Token` from `src/lox/token.rs`:
`"{kind} {lexeme} {literal}"`.  This is what `Token::to_string()` produces,
and it is the string under which declarations bind names in an environment. -/
def Token.display (t : Token) : String :=
  t.kind.display ++ " " ++ t.lexeme ++ " " ++ t.literal

/-- The `Expr` AST node type.  Its defining file (`src/lib/parser/expression.rs`)
is not under `src/`; the constructors are reconstructed from their construction
sites in `src/lib/parser/mod.rs` (`Expr::Literal`, `Expr::Grouping`,
`Expr::Unary`, `Expr::Binary`).  The further variants the spec lists (variable
references, assignment, call, ...) are never constructed by the code under
`src/` and are omitted. -/
inductive Expr where
  | Literal : Token → Expr
  | Grouping : Expr → Expr
  | Unary : Token → Expr → Expr
  | Binary : Expr → Token → Expr → Expr
deriving Repr, DecidableEq

/-- `Stmt` from `src/lib/parser/statements.rs`. -/
inductive Stmt where
  | Expression : Expr → Stmt
  | Print : Expr → Stmt
  | Return : Token → Expr → Stmt
  | If : Expr → Stmt → Option Stmt → Stmt
  | Function : Token → List Token → Stmt → Stmt
  | Class : Token → Option Expr → List Stmt → Stmt
  | Variable : Token → Expr → Stmt
  | While : Expr → Stmt → Stmt
  | Block : List Stmt → Stmt

/-- `impl Display for Stmt` from `src/lib/parser/statements.rs`. -/
def Stmt.display : Stmt → String
  | .Expression _ => "expression"
  | .Print _ => "print"
  | .Return _ _ => "return"
  | .If _ _ _ => "if"
  | .Function _ _ _ => "function"
  | .Class _ _ _ => "class"
  | .Variable _ _ => "variable"
  | .While _ _ => "while"
  | .Block _ => "block"

/-- `LoxClass`.  Its defining file is not under `src/`; reconstructed from its
only construction site `LoxClass::new(&name)` in `src/lib/parser/statements.rs`
(line 96), which passes the class *name only* — in particular no method list
and no superclass reach the class value. -/
structure LoxClass where
  name : String
deriving Repr, DecidableEq

/-- `LoxFunction` from `src/lib/interpreter/values.rs` (lines 77–80):
a declaration statement plus a cached arity. -/
structure LoxFunction where
  declaration : Stmt
  arity : Nat

/-- The closed set of `Rc<dyn LoxCallable>` trait objects constructed by the
code under `src/`: user functions (`values.rs`) and classes (`statements.rs`). -/
inductive CallableObj where
  | fn : LoxFunction → CallableObj
  | cls : LoxClass → CallableObj

/-- `LoxValue` from `src/lib/interpreter/values.rs` (lines 61–69). -/
inductive LoxValue where
  | String : String → LoxValue
  | Nil : LoxValue
  | Decimal : ℚ → LoxValue
  | Integer : ℤ → LoxValue
  | Boolean : Bool → LoxValue
  | Callable : CallableObj → LoxValue

/-- `ReturnVal` from `src/lib/parser/statements.rs` (lines 104–108). -/
structure ReturnVal where
  val : LoxValue
  pos : Span

/-- `LoxError` (from `src/error.rs`, not under `src/`): the variants observed
at use sites in `src/` are `LoxError::Generic(String)`, the `InnerError`
span+message failures produced by `InnerError::new(span, msg)`, and the
`LoxError::Return(ReturnVal)` control-flow signal
(`impl From<ReturnVal> for LoxError` in `statements.rs`). -/
inductive LoxError where
  | Generic : String → LoxError
  | Inner : Span → String → LoxError
  | Return : ReturnVal → LoxError

/-- `LoxValue::is_truthy` (values.rs lines 144–150): `false` and `nil` are
falsy, everything else is truthy. -/
def LoxValue.is_truthy : LoxValue → Bool
  | .Boolean b => b
  | .Nil => false
  | _ => true

/-- `LoxValue::is_num` (values.rs lines 186–188). -/
def LoxValue.is_num : LoxValue → Bool
  | .Integer _ => true
  | .Decimal _ => true
  | _ => false

/-- `LoxValue::is_decimal` (values.rs lines 190–192). -/
def LoxValue.is_decimal : LoxValue → Bool
  | .Decimal _ => true
  | _ => false

/-- `LoxValue::is_string` (values.rs lines 194–196). -/
def LoxValue.is_string : LoxValue → Bool
  | .String _ => true
  | _ => false

/-- `LoxValue::to_dec` (values.rs lines 178–184).  The non-numeric arm is
`unreachable!()` — a panic — modelled as `none`. -/
def LoxValue.to_dec : LoxValue → Option ℚ
  | .Decimal d => some d
  | .Integer i => some (i : ℚ)
  | _ => none

/-- `LoxValue.to_int` (values.rs lines 170–176).  `*d as isize` truncates
toward zero; the non-numeric arm is `unreachable!()`, modelled as `none`. -/
def LoxValue.to_int : LoxValue → Option ℤ
  | .Decimal d => some (if 0 ≤ d then ⌊d⌋ else ⌈d⌉)
  | .Integer i => some i
  | _ => none

/-- `impl PartialEq for LoxValue` (values.rs lines 319–351).  Both operands
`Nil` → true; `Nil` vs anything else → false; `String`/`Boolean` compare by
value against the same variant and are false otherwise; any remaining left
operand (`Decimal`, `Integer` or `Callable`) yields false when the right
operand is not numeric, and otherwise both sides are converted with `to_dec`
and compared — where a `Callable` left operand hits `to_dec`'s
`unreachable!()` panic (`none`). -/
def loxEq (v oth : LoxValue) : Option Bool :=
  match v, oth with
  | .Nil, .Nil => some true
  | .Nil, _ => some false
  | .String s, .String t => some (s == t)
  | .String _, _ => some false
  | .Boolean b, .Boolean c => some (b == c)
  | .Boolean _, _ => some false
  | v, oth =>
    if !oth.is_num then
      some false
    else
      match v.to_dec, oth.to_dec with
      | some lhs, some rhs => some (decide (lhs = rhs))
      | _, _ => none

/-- The `check_or!` macro of values.rs specialised to `LoxValue::is_num`:
test the left value, then the right value, returning
`LoxError::Generic(msg)` at the first failure. -/
def checkNums (a b : LoxValue) (msg : String) : Except LoxError Unit :=
  if !a.is_num then .error (.Generic msg)
  else if !b.is_num then .error (.Generic msg)
  else .ok ()

/-- The `binop!` macro of values.rs, monomorphised: if at least one operand
`is_decimal`, widen both with `to_dec` and apply the operator at `f64` type
(`fq`); otherwise convert both with `to_int` and apply it at `isize` type
(`fz`).  Panics inside the conversions propagate as `none`. -/
def binop (a b : LoxValue) (fq : ℚ → ℚ → ℚ) (fz : ℤ → ℤ → ℤ) :
    Option LoxValue :=
  if a.is_decimal || b.is_decimal then
    match a.to_dec, b.to_dec with
    | some x, some y => some (.Decimal (fq x y))
    | _, _ => none
  else
    match a.to_int, b.to_int with
    | some x, some y => some (.Integer (fz x y))
    | _, _ => none

/-- The `cmpop!` macro of values.rs: compare both operands widened with
`to_dec`. -/
def cmpop (a b : LoxValue) (cmp : ℚ → ℚ → Bool) : Option LoxValue :=
  match a.to_dec, b.to_dec with
  | some x, some y => some (.Boolean (cmp x y))
  | _, _ => none

/-- `LoxValue::ge` (values.rs lines 152–155). -/
def LoxValue.ge (a b : LoxValue) : Option (Except LoxError LoxValue) :=
  match checkNums a b "operands must be numbers" with
  | .error e => some (.error e)
  | .ok _ => (cmpop a b (fun x y => decide (x ≥ y))).map .ok

/-- `LoxValue::gt` (values.rs lines 157–160). -/
def LoxValue.gt (a b : LoxValue) : Option (Except LoxError LoxValue) :=
  match checkNums a b "operands must be numbers" with
  | .error e => some (.error e)
  | .ok _ => (cmpop a b (fun x y => decide (x > y))).map .ok

/-- `LoxValue::le` (values.rs lines 161–164). -/
def LoxValue.le (a b : LoxValue) : Option (Except LoxError LoxValue) :=
  match checkNums a b "operands must be numbers" with
  | .error e => some (.error e)
  | .ok _ => (cmpop a b (fun x y => decide (x ≤ y))).map .ok

/-- `LoxValue::lt` (values.rs lines 165–168). -/
def LoxValue.lt (a b : LoxValue) : Option (Except LoxError LoxValue) :=
  match checkNums a b "operands must be numbers" with
  | .error e => some (.error e)
  | .ok _ => (cmpop a b (fun x y => decide (x < y))).map .ok

/-- Truncating (toward zero) integer division, the semantics of Rust's
`isize` `/` operator (only ever reached with nonzero divisor). -/
def tdiv (x y : ℤ) : ℤ := Int.tdiv x y

/-- `impl Sub for LoxValue` (values.rs lines 238–246). -/
def loxSub (a b : LoxValue) : Option (Except LoxError LoxValue) :=
  match checkNums a b "operands must be numbers" with
  | .error e => some (.error e)
  | .ok _ => (binop a b (fun x y => x - y) (fun x y => x - y)).map .ok

/-- `impl Mul for LoxValue` (values.rs lines 261–269). -/
def loxMul (a b : LoxValue) : Option (Except LoxError LoxValue) :=
  match checkNums a b "operands must be numbers" with
  | .error e => some (.error e)
  | .ok _ => (binop a b (fun x y => x * y) (fun x y => x * y)).map .ok

/-- `impl Div for LoxValue` (values.rs lines 248–259): after the numeric
check, `self.eq(&LoxValue::Decimal(0.0)) || rhs.eq(&zero)` (short-circuit)
triggers the divide-by-zero error; otherwise `binop!` with `/`. -/
def loxDiv (a b : LoxValue) : Option (Except LoxError LoxValue) :=
  match checkNums a b "operands must be numbers" with
  | .error e => some (.error e)
  | .ok _ =>
    match loxEq a (.Decimal 0) with
    | none => none
    | some true => some (.error (.Generic "attempt to divide by zero"))
    | some false =>
      match loxEq b (.Decimal 0) with
      | none => none
      | some true => some (.error (.Generic "attempt to divide by zero"))
      | some false => (binop a b (fun x y => x / y) tdiv).map .ok

/-- `LoxCallable::to_string` for `LoxFunction` (values.rs lines 133–138):
`"<fn {name}>"` for a `Function` declaration, `unreachable!()` otherwise. -/
def LoxFunction.displayName (f : LoxFunction) : Option String :=
  match f.declaration with
  | .Function name _ _ => some ("<fn " ++ name.display ++ ">")
  | _ => none

/-- `to_string` of the callable objects constructed under `src/`.  The
`LoxCallable` impl of `LoxClass` is not under `src/`; modelled from the spec:
a callable exposes a "display name", for a class its name. -/
def CallableObj.display : CallableObj → Option String
  | .fn f => f.displayName
  | .cls c => some c.name

/-- `impl Display for LoxValue` (values.rs lines 213–224), the "default
textual rendering" used by string concatenation and `print`.  `none` models
the panic inside `callable.to_string()` on a malformed function value.
(Named `loxDisplay` because inside the `LoxValue` namespace the name `String`
would resolve to the constructor.) -/
def loxDisplay : LoxValue → Option String
  | .Decimal d => some (ratDisplay d)
  | .Integer i => some (toString i)
  | .Boolean b => some (cond b "true" "false")
  | .String s => some s
  | .Callable c => c.display
  | .Nil => some "nil"

/-- `impl Add for LoxValue` (values.rs lines 271–287): both numeric →
`binop!` with `+`; else if either operand `is_string`, the concatenation of
the two default renderings (left first); else a `Generic` type error. -/
def loxAdd (a b : LoxValue) : Option (Except LoxError LoxValue) :=
  if a.is_num && b.is_num then
    (binop a b (fun x y => x + y) (fun x y => x + y)).map .ok
  else if a.is_string || b.is_string then
    match loxDisplay a, loxDisplay b with
    | some sa, some sb => some (.ok (.String (sa ++ sb)))
    | _, _ => none
  else
    some (.error (.Generic "operands must be number or string"))

/-- `impl Neg for LoxValue` (values.rs lines 289–301). -/
def loxNeg : LoxValue → Except LoxError LoxValue
  | .Decimal d => .ok (.Decimal (-d))
  | .Integer i => .ok (.Integer (-i))
  | _ => .error (.Generic "unary operand must be a number")

/-- One scope frame: a name→value mapping with interior mutability in Rust,
modelled as an association list with unique keys maintained by `Frame.set`. -/
abbrev Frame := List (String × LoxValue)

/-- Insert-or-overwrite a binding in a single frame. -/
def Frame.set : Frame → String → LoxValue → Frame
  | [], n, v => [(n, v)]
  | (m, w) :: rest, n, v =>
    if m = n then (n, v) :: rest else (m, w) :: Frame.set rest n v

/-- Look a name up in a single frame. -/
def Frame.get? : Frame → String → Option LoxValue
  | [], _ => none
  | (m, w) :: rest, n => if m = n then some w else Frame.get? rest n

/-- Modelled from the spec: the `Environment` type (its file
`src/lib/interpreter/mod.rs` is not under `src/`) — a scope frame plus an
optional parent reference, forming a chain rooted at the global scope. -/
inductive Env where
  | global : Frame → Env
  | child : Frame → Env → Env

/-- Modelled from the spec: `Environment::define(name, value)` inserts or
overwrites a binding in the current (innermost) scope only. -/
def Env.define : Env → String → LoxValue → Env
  | .global f, n, v => .global (f.set n v)
  | .child f p, n, v => .child (f.set n v) p

/-- Modelled from the spec: `Environment::get(name)` searches the current
scope then each ancestor outward; fails with "undefined variable" when
exhausted. -/
def Env.get : Env → String → Except LoxError LoxValue
  | .global f, n =>
    match f.get? n with
    | some v => .ok v
    | none => .error (.Generic "undefined variable")
  | .child f p, n =>
    match f.get? n with
    | some v => .ok v
    | none => Env.get p n

/-- Modelled from the spec: `Environment::assign(name, value)` mutates the
first existing binding found on the chain in place and fails with
"undefined variable" when no scope holds the name. -/
def Env.assign : Env → String → LoxValue → Except LoxError Env
  | .global f, n, v =>
    if (f.get? n).isSome then .ok (.global (f.set n v))
    else .error (.Generic "undefined variable")
  | .child f p, n, v =>
    if (f.get? n).isSome then .ok (.child (f.set n v) p)
    else (Env.assign p n v).map (fun p2 => .child f p2)

/-- `Environment::from(parent)`: a fresh empty scope whose parent is the
given environment (`from` is a Lean keyword, hence `fromParent`). -/
def Env.fromParent (parent : Env) : Env := .child [] parent

/-- Dropping the innermost scope when a `Block` finishes: the Rust code drops
the `Rc` to the child scope and retains the (possibly mutated) parent. -/
def Env.popScope : Env → Env
  | .child _ p => p
  | .global f => .global f

/-- Modelled from the spec: the expression evaluator interface.  The file
defining `Expr::evaluate`, `Expr::position` and `Expr::is_nil_expr`
(`src/lib/parser/expression.rs`) is not under `src/`; statement execution
only needs these three capabilities, so they are abstracted as a parameter:
`eval` produces a value or a propagating error, `pos` is the node's source
span, `isNilExpr` recognises the placeholder initializer of a variable
declaration without initializer.  (`evaluate` is modelled as pure: no
verified claim depends on expression side effects; the resolver `locals` map
is absorbed into `eval`.) -/
structure ExprSem where
  eval : Expr → Env → Except LoxError LoxValue
  pos : Expr → Span
  isNilExpr : Expr → Bool

/-- `LoxFunction::new` (values.rs lines 82–94): accepts only a `Function`
declaration and caches `params.len()` as the arity.  (The statements.rs
snapshot calls a two-argument `LoxFunction::new(declaration, env)`; the
claims name values.rs lines 82–94, the one-argument version, which is what
is modelled.) -/
def LoxFunction.new : Stmt → Except LoxError LoxFunction
  | .Function n ps b => .ok ⟨.Function n ps b, ps.length⟩
  | s =>
    .error (.Generic
      ("cannot create lox function from " ++ s.display ++ " statement"))

/-- The parameter-binding loop of `LoxFunction::call` (values.rs lines
100–112): walk the parameter list with its index, defining each parameter
name (its `Token::to_string()` rendering) to `args.get(idx)`, and fail with
an `InnerError` at the parameter's span when the argument is missing.
Surplus arguments are never examined. -/
def bindParams (args : List LoxValue) : Env → List Token → Nat →
    Except LoxError Env
  | env, [], _ => .ok env
  | env, p :: ps, idx =>
    match args[idx]? with
    | none => .error (.Inner p.span "missing arguments to function call")
    | some a => bindParams args (env.define p.display a) ps (idx + 1)

mutual
/-- `Stmt::execute` (statements.rs lines 37–101), fuelled (`none` = out of
fuel or panic).  The writer is modelled as an accumulated list of written
strings. -/
def execute (es : ExprSem) : Nat → Stmt → Env → List String →
    Option (Except LoxError (Env × List String))
  | 0, _, _, _ => none
  | fuel+1, s, env, out =>
    match s with
    | .Expression e =>
      match es.eval e env with
      | .error er => some (.error er)
      | .ok _ => some (.ok (env, out))
    | .Print e =>
      match es.eval e env with
      | .error er => some (.error er)
      | .ok v =>
        match loxDisplay v with
        | none => none
        | some sv => some (.ok (env, out ++ [sv ++ "\n"]))
    | .Variable name init =>
      if es.isNilExpr init then
        some (.ok (env.define name.display .Nil, out))
      else
        match es.eval init env with
        | .error er => some (.error er)
        | .ok v => some (.ok (env.define name.display v, out))
    | .Block stmts =>
      match executeList es fuel stmts (Env.fromParent env) out with
      | none => none
      | some (.error er) => some (.error er)
      | some (.ok (env2, out2)) => some (.ok (env2.popScope, out2))
    | .If c tb eb =>
      match es.eval c env with
      | .error er => some (.error er)
      | .ok cv =>
        if cv.is_truthy then execute es fuel tb env out
        else
          match eb with
          | some sb => execute es fuel sb env out
          | none => some (.ok (env, out))
    | .While c body =>
      match es.eval c env with
      | .error er => some (.error er)
      | .ok cv =>
        if cv.is_truthy then
          match execute es fuel body env out with
          | none => none
          | some (.error er) => some (.error er)
          | some (.ok (env2, out2)) => execute es fuel (.While c body) env2 out2
        else some (.ok (env, out))
    | .Function name ps body =>
      match LoxFunction.new (.Function name ps body) with
      | .error er => some (.error er)
      | .ok f =>
        some (.ok (env.define name.display (.Callable (.fn f)), out))
    | .Return kw val =>
      match es.eval val env with
      | .error er => some (.error er)
      | .ok v =>
        some (.error (.Return ⟨v, ⟨kw.span.start, (es.pos val).stop⟩⟩))
    | .Class name _sup _methods =>
      let n := name.display
      let env1 := env.define n .Nil
      match env1.assign n (.Callable (.cls ⟨n⟩)) with
      | .error er => some (.error er)
      | .ok env2 => some (.ok (env2, out))

/-- The statement loop of the `Block` arm of `Stmt::execute` (statements.rs
lines 60–65). -/
def executeList (es : ExprSem) : Nat → List Stmt → Env → List String →
    Option (Except LoxError (Env × List String))
  | 0, _, _, _ => none
  | _fuel+1, [], env, out => some (.ok (env, out))
  | fuel+1, s :: rest, env, out =>
    match execute es fuel s env out with
    | none => none
    | some (.error er) => some (.error er)
    | some (.ok (env2, out2)) => executeList es fuel rest env2 out2
end

/-- `LoxCallable::call` for `LoxFunction` (values.rs lines 96–127): create a
fresh child of the passed environment, bind the parameters positionally,
execute the body (writing to stdout, modelled as a discarded fresh writer),
consume a propagating `Return` signal as the call's result, propagate every
other error, and yield `Nil` when the body completes normally (also when the
cached declaration is not a `Function` statement, in which case the `if let`
body is skipped). -/
def LoxFunction.call (es : ExprSem) (fuel : Nat) (f : LoxFunction)
    (env : Env) (args : List LoxValue) : Option (Except LoxError LoxValue) :=
  let envF := Env.fromParent env
  match f.declaration with
  | .Function _name params body =>
    match bindParams args envF params 0 with
    | .error er => some (.error er)
    | .ok envB =>
      match execute es fuel body envB [] with
      | none => none
      | some (.error (.Return r)) => some (.ok r.val)
      | some (.error er) => some (.error er)
      | some (.ok _) => some (.ok .Nil)
  | _ => some (.ok .Nil)

/-- `InnerIter::peek` (mod.rs lines 210–213): the token at the cursor. -/
def peekTok (toks : List Token) (c : Nat) : Option Token := toks[c]?

/-- `InnerIter::previous` (mod.rs lines 204–208): the token at
`current.checked_sub(1)`. -/
def prevTok (toks : List Token) (c : Nat) : Option Token :=
  match c with
  | 0 => none
  | n + 1 => toks[n]?

/-- The cursor advance of `InnerIter::next` (mod.rs lines 196–202):
increments only while the cursor is in range. -/
def nextCur (toks : List Token) (c : Nat) : Nat :=
  if c < toks.length then c + 1 else c

/-- `Parser::check` (mod.rs lines 67–70): does the peeked token have the
given kind. -/
def checkTok (toks : List Token) (c : Nat) (k : TokenKind) : Bool :=
  match peekTok toks c with
  | some t => t.kind == k
  | none => false

/-- `Parser::multi_check` (mod.rs lines 55–65): if the peeked token's kind is
among `ks`, consume it and report success, else leave the cursor alone. -/
def multiCheck (toks : List Token) (ks : List TokenKind) (c : Nat) :
    Bool × Nat :=
  match peekTok toks c with
  | some t => if ks.contains t.kind then (true, nextCur toks c) else (false, c)
  | none => (false, c)

/-- The operator sets of the four `parse_left` call sites (mod.rs lines
79–107): level 1 `equality`, 2 `comparison`, 3 `term`, 4 `factor`. -/
def levelOps : Nat → List TokenKind
  | 1 => [.Punctuator .Eq, .Punctuator .NotEq]
  | 2 => [.Punctuator .GreaterThan, .Punctuator .GreaterThanOrEq,
          .Punctuator .LessThan, .Punctuator .LessThanOrEq]
  | 3 => [.Punctuator .Add, .Punctuator .Sub]
  | 4 => [.Punctuator .Div, .Punctuator .Mul]
  | _ => []

mutual
/-- The recursive-descent ladder of `Parser` (mod.rs lines 73–147) as one
level-indexed function (the uniform encoding of the source's one function
per level): level 0 is `expression` (which only delegates to `equality`),
levels 1–4 are the four `parse_left` levels (`equality`, `comparison`,
`term`, `factor`), level 5 is `unary` and level 6 is `primary`.  Fuelled;
`none` models fuel exhaustion or the `previous().unwrap()` panics.  Results
pair the parsed expression with the new cursor. -/
def prodP (toks : List Token) : Nat → Nat → Nat →
    Option (Except LoxError (Expr × Nat))
  | 0, _, _ => none
  | fuel+1, lvl, c =>
    if lvl = 0 then
      prodP toks fuel 1 c
    else if lvl ≤ 4 then
      match prodP toks fuel (lvl + 1) c with
      | none => none
      | some (.error e) => some (.error e)
      | some (.ok (ex, c1)) => loopP toks fuel lvl ex c1
    else if lvl = 5 then
      match multiCheck toks [.Punctuator .Not, .Punctuator .Sub] c with
      | (true, c1) =>
        match prevTok toks c1 with
        | none => none
        | some op =>
          match prodP toks fuel 5 c1 with
          | none => none
          | some (.error e) => some (.error e)
          | some (.ok (rhs, c2)) => some (.ok (.Unary op rhs, c2))
      | (false, _) => prodP toks fuel 6 c
    else
      match peekTok toks c with
      | some tk =>
        match tk.kind with
        | .BooleanLiteral _ => some (.ok (.Literal tk, nextCur toks c))
        | .StringLiteral _ => some (.ok (.Literal tk, nextCur toks c))
        | .NumericLiteral _ => some (.ok (.Literal tk, nextCur toks c))
        | .Keyword .Nil => some (.ok (.Literal tk, nextCur toks c))
        | .Punctuator .OpenParen =>
          match prodP toks fuel 0 (nextCur toks c) with
          | none => none
          | some (.error e) => some (.error e)
          | some (.ok (ex, c2)) =>
            if checkTok toks c2 (.Punctuator .CloseParen) then
              some (.ok (.Grouping ex, nextCur toks c2))
            else
              match prevTok toks c2 with
              | none => none
              | some pt =>
                some (.error
                  (.Inner pt.span "expected \x27)\x27 after expression"))
        | _ => some (.error (.Inner tk.span "expected expression"))
      | none =>
        match prevTok toks c with
        | none => none
        | some pt => some (.error (.Inner pt.span "expected expression"))

/-- The `while` loop of `Parser::parse_left` (mod.rs lines 166–173): as long
as `multi_check` consumes a level operator, parse another operand one level
higher and fold it into a left-nested `Expr::Binary`; when `previous()` is
`None` the loop `break`s with the expression built so far. -/
def loopP (toks : List Token) : Nat → Nat → Expr → Nat →
    Option (Except LoxError (Expr × Nat))
  | 0, _, _, _ => none
  | fuel+1, lvl, expr, c =>
    match multiCheck toks (levelOps lvl) c with
    | (false, _) => some (.ok (expr, c))
    | (true, c1) =>
      match prevTok toks c1 with
      | none => some (.ok (expr, c1))
      | some op =>
        match prodP toks fuel (lvl + 1) c1 with
        | none => none
        | some (.error e) => some (.error e)
        | some (.ok (rhs, c2)) => loopP toks fuel lvl (.Binary expr op rhs) c2
end

/-- `Parser::parse` (mod.rs lines 29–31): parse a single `expression` from
cursor 0.  The Rust method returns only the `LoxResult<Expr>`; the model
also exposes the final cursor. -/
def parse (toks : List Token) (fuel : Nat) :
    Option (Except LoxError (Expr × Nat)) :=
  prodP toks fuel 0 0

/-- The statement-starting keywords checked by `Parser::synchronize`
(mod.rs lines 45–49). -/
def isStmtStart : TokenKind → Bool
  | .Keyword .Class => true
  | .Keyword .Fn => true
  | .Keyword .Let => true
  | .Keyword .For => true
  | .Keyword .If => true
  | .Keyword .While => true
  | .Keyword .Print => true
  | .Keyword .Return => true
  | _ => false

/-- The `while let` loop of `Parser::synchronize` (mod.rs lines 38–52):
stop when the input is exhausted, when the previously consumed token is a
semicolon, or when the peeked token starts a statement; otherwise advance.
Fuelled; `toks.length` fuel always suffices. -/
def syncLoop (toks : List Token) : Nat → Nat → Nat
  | 0, c => c
  | fuel+1, c =>
    match peekTok toks c with
    | none => c
    | some e =>
      let semiBefore : Bool :=
        match prevTok toks c with
        | some t => t.kind == .Punctuator .Semicolon
        | none => false
      if semiBefore then c
      else if isStmtStart e.kind then c
      else syncLoop toks fuel (nextCur toks c)

/-- `Parser::synchronize` (mod.rs lines 36–53): skip one token, then walk to
the next statement boundary.  Dead code in the source (`
#[allow(dead_code)]`, no caller), modelled for the recovery claim. -/
def synchronize (toks : List Token) (fuel c : Nat) : Nat :=
  syncLoop toks fuel (nextCur toks c)

/-! ## Concrete fixtures used by witnesses and counterexamples -/

/-- A one-character span on line 1 at column `n`. -/
def mkSpan (n : Nat) : Span := ⟨⟨1, n⟩, ⟨1, n + 1⟩⟩

/-- An integer-literal token at column `n`. -/
def intTok (v : ℤ) (n : Nat) : Token :=
  ⟨.NumericLiteral (.Integer v), toString v, toString v, mkSpan n⟩

/-- A punctuator token at column `n`. -/
def punTok (p : Punctuator) (n : Nat) : Token :=
  ⟨.Punctuator p, p.display, "", mkSpan n⟩

/-- A keyword token at column `n`. -/
def kwTok (k : Keyword) (n : Nat) : Token :=
  ⟨.Keyword k, k.display, "", mkSpan n⟩

/-- A boolean-literal token at column `n`. -/
def boolTok (b : Bool) (n : Nat) : Token :=
  ⟨.BooleanLiteral b, cond b "true" "false", "", mkSpan n⟩

/-- An identifier token at column `n`. -/
def identTok (s : String) (n : Nat) : Token :=
  ⟨.Identifier s, s, "", mkSpan n⟩

/-- A concrete expression-evaluator instance: every expression evaluates to
`Integer 7`, has span `mkSpan 5`, and is not the nil placeholder. -/
def sampleES : ExprSem :=
  ⟨fun _ _ => .ok (.Integer 7), fun _ => mkSpan 5, fun _ => false⟩

/-- An empty global environment. -/
def envG : Env := .global []

/-! ## Claim C10 -/

/-- C10: evaluating equality with a `Callable` left operand and a numeric
right operand reaches `to_dec` on the `Callable`, whose non-numeric branch
is `unreachable!()` — that branch is reachable under this input shape
(modelled as the `none` outcome), so `==` is not total over all pairs of
runtime values. -/
theorem c10_eq_callable_numeric_panics :
    loxEq (.Callable (.cls ⟨"C"⟩)) (.Integer 1) = none
  ∧ (∀ c : CallableObj, LoxValue.to_dec (.Callable c) = none)
  ∧ ¬ (∀ a b : LoxValue, (loxEq a b).isSome = true) := by
  refine ⟨rfl, fun c => rfl, fun h => ?_⟩
  have := h (.Callable (.cls ⟨"C"⟩)) (.Integer 1)
  simp [loxEq, LoxValue.is_num, LoxValue.to_dec] at this

/-! ## Claim C1 -/

/-- C1 counterexample: the claim says a numeric value compared with a
non-numeric value yields `false`, for *every* pair of runtime values; but
evaluating `Callable == Integer 1` does not yield `false` — it panics in
`to_dec`'s `unreachable!()` branch (`none` in the model). -/
theorem c1_counterexample :
    loxEq (.Callable (.cls ⟨"C"⟩)) (.Integer 1) ≠ some false
  ∧ loxEq (.Callable (.cls ⟨"C"⟩)) (.Integer 1) = none := by
  exact ⟨by simp [loxEq, LoxValue.is_num, LoxValue.to_dec], rfl⟩

/-- C1 (amended): equality behaves as claimed — both `Nil` → true, exactly
one `Nil` → false, same-type `String`/`Boolean` by value, numeric pairs by
widening both operands to floating point, numeric left vs non-numeric right
→ false, and no Boolean/numeric coercion (`true == 1` is false, `1 == 1.0`
is true) — *except* that a `Callable` left operand compared with a numeric
right operand panics instead of yielding false (the case the counterexample
forces out of the universal claim); a `Callable` left operand against a
non-numeric right operand still yields false. -/
theorem c1_equality_semantics :
    (loxEq .Nil .Nil = some true)
  ∧ (∀ b : LoxValue, b ≠ .Nil → loxEq .Nil b = some false ∧ loxEq b .Nil = some false)
  ∧ (∀ s t : String, loxEq (.String s) (.String t) = some (s == t))
  ∧ (∀ (s : String) (b : LoxValue), b.is_string = false → loxEq (.String s) b = some false)
  ∧ (∀ p q : Bool, loxEq (.Boolean p) (.Boolean q) = some (p == q))
  ∧ (∀ (p : Bool) (b : LoxValue), (∀ q : Bool, b ≠ .Boolean q) →
        loxEq (.Boolean p) b = some false)
  ∧ (∀ i j : ℤ, loxEq (.Integer i) (.Integer j) = some (decide ((i : ℚ) = (j : ℚ))))
  ∧ (∀ (i : ℤ) (d : ℚ), loxEq (.Integer i) (.Decimal d) = some (decide ((i : ℚ) = d)))
  ∧ (∀ (d : ℚ) (i : ℤ), loxEq (.Decimal d) (.Integer i) = some (decide (d = (i : ℚ))))
  ∧ (∀ d e : ℚ, loxEq (.Decimal d) (.Decimal e) = some (decide (d = e)))
  ∧ (∀ a b : LoxValue, a.is_num = true → b.is_num = false → loxEq a b = some false)
  ∧ (∀ (c : CallableObj) (b : LoxValue), b.is_num = false →
        loxEq (.Callable c) b = some false)
  ∧ (∀ (c : CallableObj) (b : LoxValue), b.is_num = true →
        loxEq (.Callable c) b = none)
  ∧ (loxEq (.Boolean true) (.Integer 1) = some false)
  ∧ (loxEq (.Integer 1) (.Decimal 1) = some true) := by
  refine ⟨rfl, ?_, fun s t => rfl, ?_, fun p q => rfl, ?_, fun i j => rfl,
    fun i d => rfl, fun d i => rfl, fun d e => rfl, ?_, ?_, ?_, rfl, rfl⟩
  · intro b hb
    refine ⟨?_, ?_⟩ <;> cases b <;> first | rfl | exact absurd rfl hb
  · intro s b hb
    cases b <;> first | rfl | simp_all [LoxValue.is_string]
  · intro p b hb
    cases b <;> first
      | rfl
      | exact absurd rfl (hb _)
  · intro a b ha hb
    cases a <;> cases b <;> simp_all [LoxValue.is_num] <;> rfl
  · intro c b hb
    cases b <;> simp_all [LoxValue.is_num] <;> rfl
  · intro c b hb
    cases b <;> simp_all [LoxValue.is_num] <;> rfl

/-- C1 witness: the hypothesis-bearing clauses of `c1_equality_semantics`
instantiated at concrete values. -/
theorem c1_equality_semantics_witness :
    loxEq .Nil (.Integer 0) = some false
  ∧ loxEq (.String "x") (.Integer 1) = some false
  ∧ loxEq (.Boolean true) (.String "t") = some false
  ∧ loxEq (.Integer 2) (.Boolean true) = some false
  ∧ loxEq (.Callable (.cls ⟨"C"⟩)) (.String "s") = some false
  ∧ loxEq (.Callable (.cls ⟨"C"⟩)) (.Decimal 2) = none := by
  refine ⟨(c1_equality_semantics.2.1 (.Integer 0) (by intro h; cases h)).1,
    c1_equality_semantics.2.2.2.1 "x" (.Integer 1) rfl,
    c1_equality_semantics.2.2.2.2.2.1 true (.String "t") (fun q h => by cases h),
    c1_equality_semantics.2.2.2.2.2.2.2.2.2.2.1 (.Integer 2) (.Boolean true) rfl rfl,
    c1_equality_semantics.2.2.2.2.2.2.2.2.2.2.2.1 (.cls ⟨"C"⟩) (.String "s") rfl,
    c1_equality_semantics.2.2.2.2.2.2.2.2.2.2.2.2.1 (.cls ⟨"C"⟩) (.Decimal 2) rfl⟩

/-! ## Claim C3 -/

/-- C3: for numeric operands, division fails with the divide-by-zero
`Generic` error whenever either operand, widened to floating point, equals
zero — a pre-check performed before any quotient is computed (`5 / 0`,
`0 / 5` and `0.0 / 1` all fail) — and otherwise succeeds with the widening
rule of the other arithmetic operators: two `Integer`s divide with native
truncating integer division, and if either operand is `Decimal` both are
widened and the quotient is a `Decimal`. -/
theorem c3_division_zero_precheck :
    (∀ a b : LoxValue, a.is_num = true → b.is_num = true →
        a.to_dec = some 0 ∨ b.to_dec = some 0 →
        loxDiv a b = some (.error (.Generic "attempt to divide by zero")))
  ∧ loxDiv (.Integer 5) (.Integer 0)
      = some (.error (.Generic "attempt to divide by zero"))
  ∧ loxDiv (.Integer 0) (.Integer 5)
      = some (.error (.Generic "attempt to divide by zero"))
  ∧ loxDiv (.Decimal 0) (.Integer 1)
      = some (.error (.Generic "attempt to divide by zero"))
  ∧ (∀ i j : ℤ, (i : ℚ) ≠ 0 → (j : ℚ) ≠ 0 →
        loxDiv (.Integer i) (.Integer j) = some (.ok (.Integer (tdiv i j))))
  ∧ (∀ d e : ℚ, d ≠ 0 → e ≠ 0 →
        loxDiv (.Decimal d) (.Decimal e) = some (.ok (.Decimal (d / e))))
  ∧ (∀ (d : ℚ) (j : ℤ), d ≠ 0 → (j : ℚ) ≠ 0 →
        loxDiv (.Decimal d) (.Integer j) = some (.ok (.Decimal (d / (j : ℚ)))))
  ∧ (∀ (i : ℤ) (e : ℚ), (i : ℚ) ≠ 0 → e ≠ 0 →
        loxDiv (.Integer i) (.Decimal e) = some (.ok (.Decimal ((i : ℚ) / e)))) := by
  refine ⟨?_, rfl, rfl, rfl, ?_, ?_, ?_, ?_⟩
  · intro a b ha hb h
    cases a <;> cases b <;>
      simp_all [loxDiv, checkNums, loxEq, LoxValue.is_num, LoxValue.to_dec] <;>
      rcases h with h | h <;> simp [h] <;> split <;> simp_all
  · intro i j hi hj
    simp [loxDiv, checkNums, loxEq, LoxValue.is_num, LoxValue.to_dec,
      LoxValue.is_decimal, LoxValue.to_int, binop, hi, hj]
  · intro d e hd he
    simp [loxDiv, checkNums, loxEq, LoxValue.is_num, LoxValue.to_dec,
      LoxValue.is_decimal, binop, hd, he]
  · intro d j hd hj
    simp [loxDiv, checkNums, loxEq, LoxValue.is_num, LoxValue.to_dec,
      LoxValue.is_decimal, binop, hd, hj]
  · intro i e hi he
    simp [loxDiv, checkNums, loxEq, LoxValue.is_num, LoxValue.to_dec,
      LoxValue.is_decimal, binop, hi, he]

/-- C3 witness: the quantified clauses of `c3_division_zero_precheck`
instantiated at concrete operands. -/
theorem c3_division_zero_precheck_witness :
    loxDiv (.Decimal 3) (.Decimal 0)
      = some (.error (.Generic "attempt to divide by zero"))
  ∧ loxDiv (.Integer 7) (.Integer 2) = some (.ok (.Integer (tdiv 7 2)))
  ∧ loxDiv (.Decimal 3) (.Decimal 2) = some (.ok (.Decimal (3 / 2)))
  ∧ loxDiv (.Decimal 3) (.Integer 2)
      = some (.ok (.Decimal (3 / ((2 : ℤ) : ℚ))))
  ∧ loxDiv (.Integer 3) (.Decimal 2)
      = some (.ok (.Decimal (((3 : ℤ) : ℚ) / 2))) := by
  refine ⟨c3_division_zero_precheck.1 (.Decimal 3) (.Decimal 0) rfl rfl (Or.inr rfl),
    c3_division_zero_precheck.2.2.2.2.1 7 2 (by norm_num) (by norm_num),
    c3_division_zero_precheck.2.2.2.2.2.1 3 2 (by norm_num) (by norm_num),
    c3_division_zero_precheck.2.2.2.2.2.2.1 3 2 (by norm_num) (by norm_num),
    c3_division_zero_precheck.2.2.2.2.2.2.2 3 2 (by norm_num) (by norm_num)⟩

/-! ## Claim C5 -/

/-- C5: for numeric operands of `+`, `-` and `*`: two `Integer`s yield an
`Integer` by native integer arithmetic; if either operand is a `Decimal`,
both operands are widened with `to_dec` and the result is the `Decimal`
equal to float arithmetic on the widened operands; and an `Integer` result
only ever arises from two `Integer` operands, so narrowing a `Decimal` to
compute an `Integer` result never occurs. -/
theorem c5_numeric_widening :
    (∀ i j : ℤ,
        loxAdd (.Integer i) (.Integer j) = some (.ok (.Integer (i + j)))
      ∧ loxSub (.Integer i) (.Integer j) = some (.ok (.Integer (i - j)))
      ∧ loxMul (.Integer i) (.Integer j) = some (.ok (.Integer (i * j))))
  ∧ (∀ a b : LoxValue, a.is_num = true → b.is_num = true →
        a.is_decimal = true ∨ b.is_decimal = true →
        ∃ x y : ℚ, a.to_dec = some x ∧ b.to_dec = some y
          ∧ loxAdd a b = some (.ok (.Decimal (x + y)))
          ∧ loxSub a b = some (.ok (.Decimal (x - y)))
          ∧ loxMul a b = some (.ok (.Decimal (x * y))))
  ∧ (∀ (a b : LoxValue) (k : ℤ),
        (loxAdd a b = some (.ok (.Integer k))
          ∨ loxSub a b = some (.ok (.Integer k))
          ∨ loxMul a b = some (.ok (.Integer k))) →
        (∃ i : ℤ, a = .Integer i) ∧ (∃ j : ℤ, b = .Integer j)) := by
  refine ⟨fun i j => ⟨rfl, rfl, rfl⟩, ?_, ?_⟩
  · intro a b ha hb h
    cases a <;> cases b <;>
      first
        | exact ⟨_, _, rfl, rfl, rfl, rfl, rfl⟩
        | simp_all [LoxValue.is_num, LoxValue.is_decimal]
  · intro a b k h
    rcases a with sa | _ | da | ia | ba | ca <;>
      rcases b with sb | _ | db | ib | bb | cb <;>
      rcases h with h | h | h <;>
      first
        | exact ⟨⟨_, rfl⟩, ⟨_, rfl⟩⟩
        | (simp_all [loxAdd, loxSub, loxMul, binop, checkNums, LoxValue.is_num,
            LoxValue.is_decimal, LoxValue.is_string, LoxValue.to_dec,
            LoxValue.to_int, loxDisplay] <;> done)
        | (rcases hc : ca.display with _ | sc <;>
            simp_all [loxAdd, binop, checkNums, LoxValue.is_num,
              LoxValue.is_decimal, LoxValue.is_string, loxDisplay])
        | (rcases hc : cb.display with _ | sc <;>
            simp_all [loxAdd, binop, checkNums, LoxValue.is_num,
              LoxValue.is_decimal, LoxValue.is_string, loxDisplay])

/-- C5 witness: the decimal-widening clause of `c5_numeric_widening`
instantiated at `1.5` and `2`, and the narrowing-free clause at a concrete
integer addition. -/
theorem c5_numeric_widening_witness :
    (∃ x y : ℚ, LoxValue.to_dec (.Decimal (3 / 2)) = some x
      ∧ LoxValue.to_dec (.Integer 2) = some y
      ∧ loxAdd (.Decimal (3 / 2)) (.Integer 2) = some (.ok (.Decimal (x + y)))
      ∧ loxSub (.Decimal (3 / 2)) (.Integer 2) = some (.ok (.Decimal (x - y)))
      ∧ loxMul (.Decimal (3 / 2)) (.Integer 2) = some (.ok (.Decimal (x * y))))
  ∧ ((∃ i : ℤ, LoxValue.Integer 2 = .Integer i) ∧ (∃ j : ℤ, LoxValue.Integer 3 = .Integer j)) := by
  refine ⟨c5_numeric_widening.2.1 (.Decimal (3 / 2)) (.Integer 2) rfl rfl (Or.inl rfl),
    c5_numeric_widening.2.2 (.Integer 2) (.Integer 3) (2 + 3) (Or.inl ?_)⟩
  exact (c5_numeric_widening.1 2 3).1

/-! ## Claim C2 -/

/-- C2: a `Return` statement never completes normally — whenever its value
expression evaluates, it produces the `LoxError::Return` signal carrying the
evaluated value and the span running from the `return` keyword's start to
the value expression's end — and at a function-call boundary a propagating
`Return` signal produced by executing the body is consumed (the call yields
the carried value, the signal does not propagate past the call), while
every other propagating error aborts the call and continues propagating. -/
theorem c2_return_signal_boundary :
    (∀ (es : ExprSem) (fuel : Nat) (kw : Token) (val : Expr) (env : Env)
        (out : List String) (r : Env × List String),
        execute es fuel (.Return kw val) env out ≠ some (.ok r))
  ∧ (∀ (es : ExprSem) (fuel : Nat) (kw : Token) (val : Expr) (env : Env)
        (out : List String) (v : LoxValue),
        es.eval val env = .ok v →
        execute es (fuel + 1) (.Return kw val) env out
          = some (.error (.Return ⟨v, ⟨kw.span.start, (es.pos val).stop⟩⟩)))
  ∧ (∀ (es : ExprSem) (fuel : Nat) (nm : Token) (ps : List Token) (body : Stmt)
        (ar : Nat) (env : Env) (args : List LoxValue) (envB : Env) (r : ReturnVal),
        bindParams args (Env.fromParent env) ps 0 = .ok envB →
        execute es fuel body envB [] = some (.error (.Return r)) →
        LoxFunction.call es fuel ⟨.Function nm ps body, ar⟩ env args
          = some (.ok r.val))
  ∧ (∀ (es : ExprSem) (fuel : Nat) (nm : Token) (ps : List Token) (body : Stmt)
        (ar : Nat) (env : Env) (args : List LoxValue) (envB : Env) (e : LoxError),
        bindParams args (Env.fromParent env) ps 0 = .ok envB →
        execute es fuel body envB [] = some (.error e) →
        (∀ r : ReturnVal, e ≠ .Return r) →
        LoxFunction.call es fuel ⟨.Function nm ps body, ar⟩ env args
          = some (.error e)) := by
  refine ⟨?_, ?_, ?_, ?_⟩
  · intro es fuel kw val env out r
    cases fuel with
    | zero => simp [execute]
    | succ n => cases he : es.eval val env <;> simp [execute, he]
  · intro es fuel kw val env out v h
    simp [execute, h]
  · intro es fuel nm ps body ar env args envB r hb hx
    simp [LoxFunction.call, hb, hx]
  · intro es fuel nm ps body ar env args envB e hb hx hr
    cases e with
    | Return r => exact absurd rfl (hr r)
    | Generic m => simp [LoxFunction.call, hb, hx]
    | Inner sp m => simp [LoxFunction.call, hb, hx]

/-- C2 witness: `c2_return_signal_boundary` instantiated — a concrete
`return 7;` statement produces the signal, and a call whose body is that
statement yields `7`. -/
theorem c2_return_signal_boundary_witness :
    execute sampleES 1 (.Return (kwTok .Return 0) (.Literal (intTok 7 1))) envG []
      = some (.error (.Return ⟨.Integer 7,
          ⟨(kwTok .Return 0).span.start, (sampleES.pos (.Literal (intTok 7 1))).stop⟩⟩))
  ∧ LoxFunction.call sampleES 3
      ⟨.Function (identTok "g" 0) []
        (.Block [.Return (kwTok .Return 1) (.Literal (intTok 7 2))]), 0⟩
      envG []
      = some (.ok (.Integer 7)) := by
  refine ⟨c2_return_signal_boundary.2.1 sampleES 0 (kwTok .Return 0)
      (.Literal (intTok 7 1)) envG [] (.Integer 7) rfl, ?_⟩
  exact c2_return_signal_boundary.2.2.1 sampleES 3 (identTok "g" 0) []
    (.Block [.Return (kwTok .Return 1) (.Literal (intTok 7 2))]) 0 envG []
    (Env.fromParent envG)
    ⟨.Integer 7, ⟨(kwTok .Return 1).span.start,
      (sampleES.pos (.Literal (intTok 7 2))).stop⟩⟩ rfl rfl

/-! ## Claim C9 -/

/-- C9: for every function call whose body executes to completion without
producing a `Return` signal and without a runtime error, the call yields
`Nil`. -/
theorem c9_call_completes_nil (es : ExprSem) (fuel : Nat) (nm : Token)
    (ps : List Token) (body : Stmt) (ar : Nat) (env : Env)
    (args : List LoxValue) (envB : Env) (x : Env × List String)
    (hb : bindParams args (Env.fromParent env) ps 0 = .ok envB)
    (hx : execute es fuel body envB [] = some (.ok x)) :
    LoxFunction.call es fuel ⟨.Function nm ps body, ar⟩ env args
      = some (.ok .Nil) := by
  simp [LoxFunction.call, hb, hx]

/-- C9 witness: a parameterless function with an empty block body called
with no arguments yields `Nil`. -/
theorem c9_call_completes_nil_witness :
    LoxFunction.call sampleES 2 ⟨.Function (identTok "g" 0) [] (.Block []), 0⟩
      envG [] = some (.ok .Nil) :=
  c9_call_completes_nil sampleES 2 (identTok "g" 0) [] (.Block []) 0 envG []
    (Env.fromParent envG) (Env.fromParent envG, []) rfl rfl

/-! ## Environment and parameter-binding lemmas (used by claim C4) -/

/-- Setting then reading the same name in a frame yields the new value. -/
theorem Frame.get?_set_self (f : Frame) (n : String) (v : LoxValue) :
    (f.set n v).get? n = some v := by
  induction f with
  | nil => simp [Frame.set, Frame.get?]
  | cons hd tl ih =>
    obtain ⟨m, w⟩ := hd
    by_cases h : m = n <;> simp [Frame.set, Frame.get?, h, ih]

/-- Setting one name leaves lookups of a different name unchanged. -/
theorem Frame.get?_set_other (f : Frame) (m n : String) (v : LoxValue)
    (h : m ≠ n) : (f.set m v).get? n = f.get? n := by
  induction f with
  | nil => simp [Frame.set, Frame.get?, h]
  | cons hd tl ih =>
    obtain ⟨p, w⟩ := hd
    by_cases hp : p = m <;> simp [Frame.set, Frame.get?, hp, h, ih]

/-- Defining then reading the same name in an environment yields the value. -/
theorem Env.get_define_self (env : Env) (n : String) (v : LoxValue) :
    (env.define n v).get n = .ok v := by
  cases env <;> simp [Env.define, Env.get, Frame.get?_set_self]

/-- Defining one name leaves lookups of a different name unchanged. -/
theorem Env.get_define_other (env : Env) (m n : String) (v : LoxValue)
    (h : m ≠ n) : (env.define m v).get n = env.get n := by
  cases env <;> simp [Env.define, Env.get, Frame.get?_set_other _ _ _ _ h]

/-- `bindParams` leaves lookups of names not among the parameters unchanged. -/
theorem bindParams_get_untouched (args : List LoxValue) (n : String) :
    ∀ (ps : List Token), (∀ p ∈ ps, p.display ≠ n) →
      ∀ (env envB : Env) (idx : Nat),
        bindParams args env ps idx = .ok envB → envB.get n = env.get n := by
  intro ps
  induction ps with
  | nil =>
    intro _ env envB idx hb
    simp [bindParams] at hb
    rw [← hb]
  | cons p ps ih =>
    intro h env envB idx hb
    rcases ha : args[idx]? with _ | a <;> simp [bindParams, ha] at hb
    have h1 := ih (fun q hq => h q (List.mem_cons_of_mem p hq))
      (env.define p.display a) envB (idx + 1) hb
    rw [h1, Env.get_define_other _ _ _ _ (h p (List.mem_cons_self p ps))]

/-- With fewer arguments than remaining parameters, `bindParams` fails with
the missing-argument error at the first unmatched parameter's span. -/
theorem bindParams_missing (args : List LoxValue) :
    ∀ (ps : List Token) (env : Env) (idx : Nat),
      idx ≤ args.length → args.length - idx < ps.length →
      ∃ p : Token, ps[args.length - idx]? = some p ∧
        bindParams args env ps idx
          = .error (.Inner p.span "missing arguments to function call") := by
  intro ps
  induction ps with
  | nil =>
    intro env idx h1 h2
    simp at h2
  | cons p ps ih =>
    intro env idx h1 h2
    have h2' : args.length - idx < ps.length + 1 := by simpa using h2
    by_cases hidx : idx = args.length
    · have ha : args[idx]? = none := by
        apply List.getElem?_eq_none
        omega
      refine ⟨p, ?_, ?_⟩
      · have h0 : args.length - idx = 0 := by omega
        simp [h0]
      · simp [bindParams, ha]
    · have hlt : idx < args.length := by omega
      have ha : args[idx]? = some args[idx] := by
        simp [List.getElem?_eq_getElem hlt]
      obtain ⟨q, hq, hbind⟩ := ih (env.define p.display args[idx])
        (idx + 1) (by omega) (by omega)
      refine ⟨q, ?_, ?_⟩
      · have hshift : args.length - idx = (args.length - (idx + 1)) + 1 := by omega
        simpa [hshift] using hq
      · simp only [bindParams, ha]
        exact hbind

/-- With enough arguments, `bindParams` succeeds and every parameter whose
name is not redefined by a later parameter reads back as the positionally
corresponding argument. -/
theorem bindParams_binds (args : List LoxValue) :
    ∀ (ps : List Token) (env : Env) (idx : Nat),
      idx + ps.length ≤ args.length →
      ∃ envB, bindParams args env ps idx = .ok envB ∧
        ∀ (k : Nat) (p : Token), ps[k]? = some p →
          (∀ (m : Nat) (q : Token), k < m → ps[m]? = some q →
            q.display ≠ p.display) →
          ∃ a, args[idx + k]? = some a ∧ envB.get p.display = .ok a := by
  intro ps
  induction ps with
  | nil =>
    intro env idx h
    exact ⟨env, by simp [bindParams], by intro k p hk; simp at hk⟩
  | cons p ps ih =>
    intro env idx h
    have h' : idx + ps.length + 1 ≤ args.length := by simpa [Nat.add_assoc] using h
    have hlt : idx < args.length := by omega
    have ha : args[idx]? = some args[idx] := by
      simp [List.getElem?_eq_getElem hlt]
    obtain ⟨envB, hbind, hget⟩ :=
      ih (env.define p.display args[idx]) (idx + 1) (by omega)
    refine ⟨envB, ?_, ?_⟩
    · simp only [bindParams, ha]
      exact hbind
    · intro k q hk hdup
      cases k with
      | zero =>
        obtain rfl : p = q := by simpa using hk
        refine ⟨args[idx], by simp [ha], ?_⟩
        have huntouched : envB.get p.display
            = (env.define p.display args[idx]).get p.display := by
          apply bindParams_get_untouched args p.display ps ?_ _ _ _ hbind
          intro r hr
          obtain ⟨m, hm, hmr⟩ := List.getElem_of_mem hr
          exact hdup (m + 1) r (by omega)
            (by simp [List.getElem?_eq_getElem hm, hmr])
        rw [huntouched, Env.get_define_self]
      | succ k2 =>
        simp only [List.getElem?_cons_succ] at hk
        have hdup2 : ∀ (m : Nat) (r : Token), k2 < m → ps[m]? = some r →
            r.display ≠ q.display := by
          intro m r hm hmr
          exact hdup (m + 1) r (by omega) (by simpa using hmr)
        obtain ⟨a, haa, hga⟩ := hget k2 q hk hdup2
        refine ⟨a, ?_, hga⟩
        have hsh : idx + 1 + k2 = idx + (k2 + 1) := by omega
        rwa [hsh] at haa

/-! ## Claim C4 -/

/-- C4 counterexample: the claim says *any* mismatch between argument count
and arity fails with a missing-argument error; but `fn g() {}` (arity 0)
called with one argument — a mismatch — succeeds and yields `Nil`: the
binding loop walks the parameter list only, so surplus arguments are
silently ignored. -/
theorem c4_counterexample :
    (LoxFunction.mk (.Function (identTok "g" 0) [] (.Block [])) 0).arity
      ≠ [LoxValue.Integer 1].length
  ∧ LoxFunction.call sampleES 2
      ⟨.Function (identTok "g" 0) [] (.Block []), 0⟩ envG [.Integer 1]
      = some (.ok .Nil)
  ∧ ¬ ∃ (sp : Span) (msg : String),
      LoxFunction.call sampleES 2
        ⟨.Function (identTok "g" 0) [] (.Block []), 0⟩ envG [.Integer 1]
        = some (.error (.Inner sp msg)) := by
  refine ⟨by simp, rfl, ?_⟩
  rintro ⟨sp, msg, h⟩
  have hc : LoxFunction.call sampleES 2
      ⟨.Function (identTok "g" 0) [] (.Block []), 0⟩ envG [.Integer 1]
      = some (.ok .Nil) := rfl
  rw [hc] at h
  simp at h

/-- C4 (amended): the arity cached by `LoxFunction::new` equals the
parameter count; a call with *fewer* arguments than parameters fails with
the missing-argument `InnerError` at the span of the first unmatched
parameter; and a call with at least as many arguments as parameters binds
each parameter name positionally to the corresponding argument in a fresh
child environment of the call environment (a later duplicate parameter name
overwrites an earlier one).  Surplus arguments are ignored rather than
rejected, so only the too-few direction of the claimed arity check exists. -/
theorem c4_arity_and_positional_binding :
    (∀ (nm : Token) (ps : List Token) (body : Stmt),
        LoxFunction.new (.Function nm ps body)
          = .ok ⟨.Function nm ps body, ps.length⟩)
  ∧ (∀ (es : ExprSem) (fuel : Nat) (nm : Token) (ps : List Token)
        (body : Stmt) (ar : Nat) (env : Env) (args : List LoxValue),
        args.length < ps.length →
        ∃ p : Token, ps[args.length]? = some p ∧
          LoxFunction.call es fuel ⟨.Function nm ps body, ar⟩ env args
            = some (.error (.Inner p.span "missing arguments to function call")))
  ∧ (∀ (args : List LoxValue) (ps : List Token) (env : Env),
        ps.length ≤ args.length →
        ∃ envB, bindParams args (Env.fromParent env) ps 0 = .ok envB ∧
          ∀ (k : Nat) (p : Token), ps[k]? = some p →
            (∀ (m : Nat) (q : Token), k < m → ps[m]? = some q →
              q.display ≠ p.display) →
            ∃ a, args[k]? = some a ∧ envB.get p.display = .ok a) := by
  refine ⟨fun nm ps body => rfl, ?_, ?_⟩
  · intro es fuel nm ps body ar env args hlen
    obtain ⟨p, hp, hfail⟩ := bindParams_missing args ps (Env.fromParent env) 0
      (Nat.zero_le _) (by simpa using hlen)
    refine ⟨p, by simpa using hp, ?_⟩
    simp [LoxFunction.call, hfail]
  · intro args ps env hlen
    obtain ⟨envB, hbind, hget⟩ := bindParams_binds args ps (Env.fromParent env) 0
      (by simpa using hlen)
    refine ⟨envB, hbind, ?_⟩
    intro k p hk hdup
    simpa using hget k p hk hdup

/-- C4 witness: `c4_arity_and_positional_binding` instantiated — a
two-parameter function called with one argument fails at the second
parameter's span, and called with two arguments binds both parameters
positionally. -/
theorem c4_arity_and_positional_binding_witness :
    (∃ p : Token, [identTok "a" 1, identTok "b" 2][([LoxValue.Integer 1].length)]?
        = some p ∧
      LoxFunction.call sampleES 2
        ⟨.Function (identTok "h" 0) [identTok "a" 1, identTok "b" 2]
          (.Block []), 2⟩ envG [.Integer 1]
        = some (.error (.Inner p.span "missing arguments to function call")))
  ∧ (∃ envB, bindParams [.Integer 1, .Integer 2] (Env.fromParent envG)
        [identTok "a" 1, identTok "b" 2] 0 = .ok envB ∧
      ∀ (k : Nat) (p : Token), [identTok "a" 1, identTok "b" 2][k]? = some p →
        (∀ (m : Nat) (q : Token), k < m →
          [identTok "a" 1, identTok "b" 2][m]? = some q →
          q.display ≠ p.display) →
        ∃ a, [LoxValue.Integer 1, LoxValue.Integer 2][k]? = some a
          ∧ envB.get p.display = .ok a) :=
  ⟨c4_arity_and_positional_binding.2.1 sampleES 2 (identTok "h" 0)
      [identTok "a" 1, identTok "b" 2] (.Block []) 2 envG [.Integer 1]
      (by simp),
    c4_arity_and_positional_binding.2.2 [.Integer 1, .Integer 2]
      [identTok "a" 1, identTok "b" 2] envG (by simp)⟩

/-! ## Claim C6 -/

/-- Setting the same name twice in a frame keeps only the second value. -/
theorem Frame.set_set (f : Frame) (n : String) (v w : LoxValue) :
    (f.set n v).set n w = f.set n w := by
  induction f with
  | nil => simp [Frame.set]
  | cons hd tl ih =>
    obtain ⟨m, u⟩ := hd
    by_cases h : m = n <;> simp [Frame.set, h, ih]

/-- Assigning a name that was just defined in the innermost scope succeeds
and overwrites that binding in place. -/
theorem Env.assign_define_self (env : Env) (n : String) (v w : LoxValue) :
    (env.define n v).assign n w = .ok (env.define n w) := by
  cases env <;>
    simp [Env.define, Env.assign, Frame.get?_set_self, Frame.set_set]

/-- C6 counterexample: the claim says the method table is built from the
declaration's method list (each method a Function closing over the class's
defining environment); but the `Class` arm of `Stmt::execute` ignores the
method list (and the superclass reference) entirely — `LoxClass::new`
receives only the name — so declaring `class C` with a method produces a
state identical to declaring it with no methods at all, and the final
binding carries a class value holding nothing but its name. -/
theorem c6_counterexample :
    execute sampleES 1
        (.Class (identTok "C" 0) none
          [.Function (identTok "m" 5) [] (.Block [])]) envG []
      = execute sampleES 1 (.Class (identTok "C" 0) none []) envG []
  ∧ execute sampleES 1
        (.Class (identTok "C" 0) none
          [.Function (identTok "m" 5) [] (.Block [])]) envG []
      = some (.ok (.global [((identTok "C" 0).display,
          .Callable (.cls ⟨(identTok "C" 0).display⟩))], [])) :=
  ⟨rfl, rfl⟩

/-- C6 (amended): executing a `Class` declaration proceeds in two phases —
first the class name is bound to `Nil` in the current scope as a
placeholder, then a `Class` value carrying *only the name* is constructed
(the declaration's method list and superclass are ignored: execution is
identical for any method list) and the placeholder binding is overwritten
in place via `assign` with the `Callable(Class)` value, which the name then
reads back. -/
theorem c6_class_two_phase :
    (∀ (es : ExprSem) (fuel : Nat) (name : Token) (sup : Option Expr)
        (methods : List Stmt) (env : Env) (out : List String),
        execute es (fuel + 1) (.Class name sup methods) env out
          = execute es (fuel + 1) (.Class name none []) env out)
  ∧ (∀ (es : ExprSem) (fuel : Nat) (name : Token) (sup : Option Expr)
        (methods : List Stmt) (env : Env) (out : List String),
        (env.define name.display .Nil).assign name.display
            (.Callable (.cls ⟨name.display⟩))
          = .ok (env.define name.display (.Callable (.cls ⟨name.display⟩)))
        ∧ execute es (fuel + 1) (.Class name sup methods) env out
          = some (.ok (env.define name.display
              (.Callable (.cls ⟨name.display⟩)), out))
        ∧ (env.define name.display
              (.Callable (.cls ⟨name.display⟩))).get name.display
          = .ok (.Callable (.cls ⟨name.display⟩))) := by
  refine ⟨fun es fuel name sup methods env out => rfl, ?_⟩
  intro es fuel name sup methods env out
  refine ⟨Env.assign_define_self env name.display .Nil _, ?_,
    Env.get_define_self env name.display _⟩
  simp [execute, Env.assign_define_self]

/-! ## Claim C7 -/

/-- Token stream `true or false`. -/
def orToks : List Token := [boolTok true 0, kwTok .Or 1, boolTok false 2]

/-- Token stream `a = 1`. -/
def assignToks : List Token := [identTok "a" 0, punTok .Assign 1, intTok 1 2]

/-- C7 counterexample: the claimed ladder contains `assignment`, `logic_or`,
`logic_and` and `call/index/property` levels; but the parser under `src/`
has none of them — on `true or false` it stops after the first literal
(cursor 1 of 3, no logical node), and on `a = 1` it fails immediately with
"expected expression" because neither identifiers nor assignment are parsed
by any level. -/
theorem c7_counterexample :
    parse orToks 30 = some (.ok (.Literal (boolTok true 0), 1))
  ∧ orToks.length = 3
  ∧ parse assignToks 30
      = some (.error (.Inner (mkSpan 0) "expected expression")) :=
  ⟨rfl, rfl, rfl⟩

set_option maxHeartbeats 2000000 in
/-- C7 (amended): the parser's ladder is
`expression → equality → comparison → term → factor → unary → primary`
(with no assignment, logical, or call levels): `expression` delegates
directly to `equality`; each binary level binds tighter than the previous
(`*` over `+`, `+` over `<`, `<` over `==`); every binary level is
left-associative (chains nest to the left, shown at all four levels); and
unary `!`/`-` is prefix and right-associative. -/
theorem c7_precedence_ladder :
    (∀ (toks : List Token) (fuel c : Nat),
        prodP toks (fuel + 1) 0 c = prodP toks fuel 1 c)
  ∧ (∀ x y z : ℤ,
        parse [intTok x 0, punTok .Add 1, intTok y 2, punTok .Mul 3,
            intTok z 4] 30
          = some (.ok (.Binary (.Literal (intTok x 0)) (punTok .Add 1)
              (.Binary (.Literal (intTok y 2)) (punTok .Mul 3)
                (.Literal (intTok z 4))), 5)))
  ∧ (∀ x y z : ℤ,
        parse [intTok x 0, punTok .Mul 1, intTok y 2, punTok .Add 3,
            intTok z 4] 30
          = some (.ok (.Binary
              (.Binary (.Literal (intTok x 0)) (punTok .Mul 1)
                (.Literal (intTok y 2))) (punTok .Add 3)
              (.Literal (intTok z 4)), 5)))
  ∧ (∀ x y z : ℤ,
        parse [intTok x 0, punTok .LessThan 1, intTok y 2, punTok .Add 3,
            intTok z 4] 30
          = some (.ok (.Binary (.Literal (intTok x 0)) (punTok .LessThan 1)
              (.Binary (.Literal (intTok y 2)) (punTok .Add 3)
                (.Literal (intTok z 4))), 5)))
  ∧ (∀ x y z : ℤ,
        parse [intTok x 0, punTok .Eq 1, intTok y 2, punTok .LessThan 3,
            intTok z 4] 30
          = some (.ok (.Binary (.Literal (intTok x 0)) (punTok .Eq 1)
              (.Binary (.Literal (intTok y 2)) (punTok .LessThan 3)
                (.Literal (intTok z 4))), 5)))
  ∧ (∀ x y z : ℤ,
        parse [intTok x 0, punTok .Eq 1, intTok y 2, punTok .NotEq 3,
            intTok z 4] 30
          = some (.ok (.Binary
              (.Binary (.Literal (intTok x 0)) (punTok .Eq 1)
                (.Literal (intTok y 2))) (punTok .NotEq 3)
              (.Literal (intTok z 4)), 5)))
  ∧ (∀ x y z : ℤ,
        parse [intTok x 0, punTok .LessThan 1, intTok y 2,
            punTok .GreaterThan 3, intTok z 4] 30
          = some (.ok (.Binary
              (.Binary (.Literal (intTok x 0)) (punTok .LessThan 1)
                (.Literal (intTok y 2))) (punTok .GreaterThan 3)
              (.Literal (intTok z 4)), 5)))
  ∧ (∀ x y z : ℤ,
        parse [intTok x 0, punTok .Add 1, intTok y 2, punTok .Sub 3,
            intTok z 4] 30
          = some (.ok (.Binary
              (.Binary (.Literal (intTok x 0)) (punTok .Add 1)
                (.Literal (intTok y 2))) (punTok .Sub 3)
              (.Literal (intTok z 4)), 5)))
  ∧ (∀ x y z : ℤ,
        parse [intTok x 0, punTok .Mul 1, intTok y 2, punTok .Div 3,
            intTok z 4] 30
          = some (.ok (.Binary
              (.Binary (.Literal (intTok x 0)) (punTok .Mul 1)
                (.Literal (intTok y 2))) (punTok .Div 3)
              (.Literal (intTok z 4)), 5)))
  ∧ (∀ x : ℤ,
        parse [punTok .Sub 0, punTok .Sub 1, intTok x 2] 30
          = some (.ok (.Unary (punTok .Sub 0) (.Unary (punTok .Sub 1)
              (.Literal (intTok x 2))), 3)))
  ∧ (∀ b : Bool,
        parse [punTok .Not 0, punTok .Not 1, boolTok b 2] 30
          = some (.ok (.Unary (punTok .Not 0) (.Unary (punTok .Not 1)
              (.Literal (boolTok b 2))), 3))) :=
  by
  refine ⟨?_, ?_, ?_, ?_, ?_, ?_, ?_, ?_, ?_, ?_, ?_⟩ <;> intros <;> rfl

/-! ## Claim C8 -/

/-- Token stream `1 ; + ;`: a well-formed first statement followed by a
malformed second statement. -/
def twoStmtToks : List Token :=
  [intTok 1 0, punTok .Semicolon 1, punTok .Add 2, punTok .Semicolon 3]

/-- Token stream `+ ; + ;`: two malformed statements. -/
def twoBadToks : List Token :=
  [punTok .Add 0, punTok .Semicolon 1, punTok .Add 2, punTok .Semicolon 3]

/-- Token stream `+ 1 ; 2` used to exercise `synchronize`. -/
def syncToks : List Token :=
  [punTok .Add 0, intTok 1 1, punTok .Semicolon 2, intTok 2 3]

/-- C8 counterexample: on `1 ; + ;` — whose second statement is a syntax
error — the claim says the parser keeps collecting and returns the list of
syntax errors of the whole program; but `Parser::parse` parses exactly one
expression, returns it successfully after one token, and reports no error
at all for the malformed rest (`synchronize` exists but has no caller). -/
theorem c8_counterexample :
    parse twoStmtToks 30 = some (.ok (.Literal (intTok 1 0), 1))
  ∧ ¬ ∃ e : LoxError, parse twoStmtToks 30 = some (.error e) := by
  refine ⟨rfl, ?_⟩
  rintro ⟨e, h⟩
  have hp : parse twoStmtToks 30 = some (.ok (.Literal (intTok 1 0), 1)) := rfl
  rw [hp] at h
  simp at h

/-- Boundary property of the `synchronize` loop: with fuel at least the
remaining token count it stops only at the end of input, right after a
semicolon, or in front of a statement-starting keyword. -/
theorem syncLoop_boundary (toks : List Token) :
    ∀ (fuel c : Nat), toks.length ≤ c + fuel →
      peekTok toks (syncLoop toks fuel c) = none
      ∨ (∃ t, prevTok toks (syncLoop toks fuel c) = some t
          ∧ t.kind = .Punctuator .Semicolon)
      ∨ (∃ e, peekTok toks (syncLoop toks fuel c) = some e
          ∧ isStmtStart e.kind = true) := by
  intro fuel
  induction fuel with
  | zero =>
    intro c h
    left
    simp only [syncLoop, peekTok]
    exact List.getElem?_eq_none (by omega)
  | succ n ih =>
    intro c h
    rcases hp : peekTok toks c with _ | e
    · left
      simp [syncLoop, hp]
    · have hc : c < toks.length := by
        by_contra hc2
        rw [peekTok, List.getElem?_eq_none (by omega)] at hp
        cases hp
      cases hsemi : (match prevTok toks c with
          | some t => t.kind == TokenKind.Punctuator Punctuator.Semicolon
          | none => false) with
      | true =>
        rcases hprev : prevTok toks c with _ | t
        · rw [hprev] at hsemi
          cases hsemi
        · rw [hprev] at hsemi
          have ht : t.kind = TokenKind.Punctuator Punctuator.Semicolon :=
            eq_of_beq (by simpa using hsemi)
          right; left
          refine ⟨t, ?_, ht⟩
          simp [syncLoop, hp, hprev, hsemi, ht]
      | false =>
        cases hss : isStmtStart e.kind with
        | true =>
          right; right
          refine ⟨e, ?_, hss⟩
          simp [syncLoop, hp, hsemi, hss]
        | false =>
          have hstep : syncLoop toks (n + 1) c = syncLoop toks n (c + 1) := by
            simp [syncLoop, hp, hsemi, hss, nextCur, hc]
          rw [hstep]
          exact ih (c + 1) (by omega)

/-- C8 (amended): `Parser::synchronize` does discard tokens up to a
statement boundary — after it runs (with fuel at least the remaining token
count) the cursor sits at the end of input, right after a semicolon, or in
front of a class/fn/let/for/if/while/print/return keyword — but it is dead
code: `parse` never invokes it, parses exactly one expression, and on a
program with several malformed statements (`+ ; + ;`) it returns only the
single first syntax error rather than a collected list. -/
theorem c8_sync_boundary_no_recovery :
    (∀ (toks : List Token) (fuel c : Nat), toks.length ≤ c + fuel →
      peekTok toks (synchronize toks fuel c) = none
      ∨ (∃ t, prevTok toks (synchronize toks fuel c) = some t
          ∧ t.kind = .Punctuator .Semicolon)
      ∨ (∃ e, peekTok toks (synchronize toks fuel c) = some e
          ∧ isStmtStart e.kind = true))
  ∧ parse twoBadToks 30
      = some (.error (.Inner (mkSpan 0) "expected expression")) := by
  refine ⟨?_, rfl⟩
  intro toks fuel c h
  have hle : c ≤ nextCur toks c := by
    unfold nextCur
    split <;> omega
  simp only [synchronize]
  exact syncLoop_boundary toks fuel (nextCur toks c) (by omega)

/-- C8 witness: the boundary clause of `c8_sync_boundary_no_recovery`
instantiated on the concrete stream `+ 1 ; 2` from cursor 0. -/
theorem c8_sync_boundary_no_recovery_witness :
    peekTok syncToks (synchronize syncToks 10 0) = none
    ∨ (∃ t, prevTok syncToks (synchronize syncToks 10 0) = some t
        ∧ t.kind = .Punctuator .Semicolon)
    ∨ (∃ e, peekTok syncToks (synchronize syncToks 10 0) = some e
        ∧ isStmtStart e.kind = true) :=
  c8_sync_boundary_no_recovery.1 syncToks 10 0 (by simp [syncToks])

end Rlox
